import Mathlib

/-!
# Verification of `process_data.py` (static-feed-store)

A shallow embedding of the aggregation pipeline in `src/process_data.py`:
row-field normalization (`clean_price`, `parse_date`, `parse_dom`), the
per-row aggregation fold of `process_csv`, and the formatters
(`format_agents_for_js`, `format_companies_for_js`) together with the
`avg_dom` computation of `calculate_market_stats`.

Modelling conventions:
* Python `dict` / `defaultdict` (insertion-ordered) is an association list
  `List (String × α)`; `dictUpdate` mutates in place when the key exists and
  appends at the end otherwise, matching dict insertion order.
* A Python exception escaping `process_csv` (the uncaught `ValueError` that
  `float` can raise inside `clean_price`) is modelled by `Option`: `none`
  means the run aborts.
* `int(float(s))` on a digits-and-dots string is modelled by exact decimal
  truncation (the integer part before the first dot); binary floating-point
  representation error for astronomically large values is out of scope, as
  is `OverflowError` on inputs beyond the float range.
* Python `int(s)` is modelled for optionally signed ASCII digit strings
  with surrounding whitespace (PEP-515 underscore grouping is not modelled).
* `str.strip`/`str.lower` are modelled by the character-list functions
  `String.pyStrip`/`String.pyLower` (ASCII-faithful).
-/

/-- Numeric value of a list of ASCII digit characters, most significant first. -/
def digitsToNat (cs : List Char) : Nat :=
  cs.foldl (fun n c => 10 * n + (c.toNat - 48)) 0

/-- Model of Python `str.strip()`: remove leading and trailing whitespace. -/
def String.pyStrip (s : String) : String :=
  String.mk (((s.data.dropWhile Char.isWhitespace).reverse.dropWhile
    Char.isWhitespace).reverse)

/-- Model of Python `str.lower()` (ASCII): lowercase every character. -/
def String.pyLower (s : String) : String :=
  String.mk (s.data.map Char.toLower)

/-- Splitting a character list at every occurrence of `sep` (the list
analogue of `s.split(sep)`; also the full-match backbone of the strptime
patterns below). -/
def split_ch (sep : Char) : List Char → List (List Char)
  | [] => [[]]
  | c :: cs =>
    if c = sep then [] :: split_ch sep cs
    else
      match split_ch sep cs with
      | [] => [[c]]
      | p :: ps => (c :: p) :: ps

/-- Model of `re.sub(r'[^\d.]', '', s)`: keep only digits and decimal points. -/
def price_strip (s : String) : String :=
  String.mk (s.data.filter fun c => c.isDigit || c == '.')

/-- Model of `int(float(s))` for a non-empty string of digits and dots:
Python's `float` accepts it iff it has at most one dot and at least one
digit; the truncated value is the integer part before the dot.  `none`
models the `ValueError` that `float` raises otherwise. -/
def float_int_trunc (s : String) : Option Nat :=
  match split_ch '.' s.data with
  | [ip] => if ip.isEmpty then none else some (digitsToNat ip)
  | [ip, fp] => if ip.isEmpty && fp.isEmpty then none else some (digitsToNat ip)
  | _ => none

/-- Embedding of `clean_price` (src/process_data.py:20-29).  `some n` is a normal return,
`none` the uncaught `ValueError` from `float`. -/
def clean_price (price_str : String) : Option Nat :=
  if price_str = "" then some 0
  else
    let cleaned := price_strip price_str
    if cleaned = "" then some 0
    else float_int_trunc cleaned

/-- Digit run whose length lies in `[lo, hi]` (strptime `\d{lo,hi}`). -/
def digitsLen (cs : List Char) (lo hi : Nat) : Bool :=
  decide (lo ≤ cs.length) && decide (cs.length ≤ hi) && cs.all Char.isDigit

def is_leap (y : Nat) : Bool :=
  (y % 4 == 0 && y % 100 != 0) || (y % 400 == 0)

def days_in_month (y m : Nat) : Nat :=
  if m == 2 then (if is_leap y then 29 else 28)
  else if m == 4 || m == 6 || m == 9 || m == 11 then 30
  else 31

/-- Validity check performed by `datetime`: year in `[1, 9999]`, month in
`[1, 12]`, day in `[1, days_in_month]`. -/
def valid_ymd (y m d : Nat) : Bool :=
  decide (1 ≤ y) && decide (y ≤ 9999) && decide (1 ≤ m) && decide (m ≤ 12) &&
    decide (1 ≤ d) && decide (d ≤ days_in_month y m)

/-- strptime `'%m/%d/%Y'` / `'%m/%d/%y'` pattern: month and day 1-2 digits,
year exactly `ylen` digits, full match.  Returns `(year-digits, month, day)`. -/
def parse_mdy (s : String) (ylen : Nat) : Option (Nat × Nat × Nat) :=
  match split_ch '/' s.data with
  | [m, d, y] =>
      if digitsLen m 1 2 && digitsLen d 1 2 && digitsLen y ylen ylen then
        some (digitsToNat y, digitsToNat m, digitsToNat d)
      else none
  | _ => none

/-- strptime two-digit-year pivot: 00-68 → 2000-2068, 69-99 → 1969-1999. -/
def pivot_y2 (yy : Nat) : Nat :=
  if yy ≤ 68 then 2000 + yy else 1900 + yy

/-- strptime `'%Y-%m-%d'` pattern: year exactly 4 digits, month/day 1-2. -/
def parse_iso (s : String) : Option (Nat × Nat × Nat) :=
  match split_ch '-' s.data with
  | [y, m, d] =>
      if digitsLen y 4 4 && digitsLen m 1 2 && digitsLen d 1 2 then
        some (digitsToNat y, digitsToNat m, digitsToNat d)
      else none
  | _ => none

/-- strftime `'%m'` / `'%d'`: zero-padded to two digits. -/
def fmt2 (n : Nat) : String :=
  if n < 10 then "0" ++ toString n else toString n

/-- strftime `'%Y-%m-%d'` (glibc does not zero-pad `%Y`). -/
def fmt_date (y m d : Nat) : String :=
  toString y ++ "-" ++ fmt2 m ++ "-" ++ fmt2 d

/-- One iteration of the format loop in `parse_date`: the format succeeds iff
its pattern matches and the date is a real calendar date. -/
def check_fmt (r : Option (Nat × Nat × Nat)) : Option String :=
  match r with
  | some (y, m, d) => if valid_ymd y m d then some (fmt_date y m d) else none
  | none => none

/-- Embedding of `parse_date` (src/process_data.py:32-44): try `%m/%d/%Y`, `%m/%d/%y`,
`%Y-%m-%d` in order; `None` when every format fails. -/
def parse_date (date_str : String) : Option String :=
  if date_str = "" then none
  else
    let s := date_str.pyStrip
    match check_fmt (parse_mdy s 4) with
    | some r => some r
    | none =>
      match check_fmt ((parse_mdy s 2).map fun t => (pivot_y2 t.1, t.2.1, t.2.2)) with
      | some r => some r
      | none => check_fmt (parse_iso s)

/-- Python `int(s)` on a string: optional surrounding whitespace, optional
sign, non-empty run of digits. -/
def str_to_int (s : String) : Option Int :=
  match s.pyStrip.data with
  | '-' :: ds =>
      if !ds.isEmpty && ds.all Char.isDigit then some (-(digitsToNat ds : Int))
      else none
  | '+' :: ds =>
      if !ds.isEmpty && ds.all Char.isDigit then some ((digitsToNat ds : Int))
      else none
  | ds =>
      if !ds.isEmpty && ds.all Char.isDigit then some ((digitsToNat ds : Int))
      else none

/-- Embedding of `parse_dom` (src/process_data.py:46-56): only strictly positive integers
are valid; everything else yields `None`. -/
def parse_dom (dom_str : String) : Option Nat :=
  if dom_str = "" then none
  else
    match str_to_int dom_str with
    | some d => if 0 < d then some d.toNat else none
    | none => none

/-! ## Data model: aggregate state of `process_csv` -/

/-- One entry of `transaction_details` (src/process_data.py:135-141, 172-178). -/
structure TxDetail where
  dt : String
  c : String
  z : String
  p : Nat
  ty : String
deriving Repr, DecidableEq

/-- The per-agent running aggregate (src/process_data.py:64-80).
`cities`/`zips` are the insertion-ordered `defaultdict(int)` multisets. -/
structure Agent where
  name : String
  first_name : String
  email : String
  office : String
  transactions : Nat
  listings : Nat
  sales : Nat
  list_volume : Nat
  sale_volume : Nat
  total_volume : Nat
  prices : List Nat
  dom_values : List Nat
  cities : List (String × Nat)
  zips : List (String × Nat)
  transaction_details : List TxDetail
deriving Repr, DecidableEq

/-- The per-company running aggregate (src/process_data.py:82-89); the Python
`set` of agent keys is a duplicate-free list (only membership and cardinality
are ever used). -/
structure Company where
  name : String
  agents : List String
  transactions : Nat
  listings : Nat
  sales : Nat
  total_volume : Nat
deriving Repr, DecidableEq

def emptyAgent : Agent :=
  ⟨"", "", "", "", 0, 0, 0, 0, 0, 0, [], [], [], [], []⟩

def emptyCompany : Company :=
  ⟨"", [], 0, 0, 0, 0⟩

/-- The mutable state of one `process_csv` run (src/process_data.py:62-94). -/
structure PState where
  agents : List (String × Agent)
  companies : List (String × Company)
  market_transaction_count : Nat
  market_total_volume : Nat
  rows_processed : Nat
  rows_skipped_no_date : Nat
deriving Repr, DecidableEq

def initState : PState := ⟨[], [], 0, 0, 0, 0⟩

/-- Lookup in an insertion-ordered association list, with the `defaultdict`
default for a missing key. -/
def dictGet (m : List (String × α)) (d : α) (k : String) : α :=
  match m with
  | [] => d
  | (k', v) :: rest => if k' = k then v else dictGet rest d k

/-- The `defaultdict` mutation `m[k] = f(m[k])`: update in place when present,
append `(k, f d)` at the end otherwise (dict insertion order). -/
def dictUpdate (m : List (String × α)) (d : α) (k : String) (f : α → α) :
    List (String × α) :=
  match m with
  | [] => [(k, f d)]
  | (k', v) :: rest =>
      if k' = k then (k', f v) :: rest else (k', v) :: dictUpdate rest d k f

/-- Python `set.add` on the duplicate-free-list model. -/
def insertSet (l : List String) (k : String) : List String :=
  if k ∈ l then l else l ++ [k]

/-- The `defaultdict(int)` counter bump `m[k] += 1`. -/
def bumpCount (m : List (String × Nat)) (k : String) : List (String × Nat) :=
  dictUpdate m 0 k (· + 1)

/-! ## The per-row aggregation step -/

/-- The one row shape produced by `csv.DictReader` (missing columns default
to the empty string, and an absent `sold_price` column behaves like `""`
since both clean to 0). -/
structure Row where
  close_date : String
  sold_price : String
  city : String
  zip : String
  days_on_market : String
  listing_agent_name : String
  listing_agent_first_name : String
  listing_agent_email : String
  listing_office_name : String
  selling_agent_name : String
  selling_agent_first_name : String
  selling_agent_email : String
  selling_office_name : String
deriving Repr, DecidableEq

/-- Lines 104-111: count the accepted row into the market totals. -/
def acceptRow (st : PState) (sp : Nat) : PState :=
  { st with
    rows_processed := st.rows_processed + 1
    market_transaction_count := st.market_transaction_count + 1
    market_total_volume := st.market_total_volume + sp }

/-- Lines 120-141: the mutations applied to `agents[listing_email]`. -/
def applyListing (row : Row) (cd : String) (sp : Nat) (dom : Option Nat)
    (a : Agent) : Agent :=
  { a with
    name := row.listing_agent_name.pyStrip
    first_name := row.listing_agent_first_name.pyStrip
    email := row.listing_agent_email.pyStrip.pyLower
    office := row.listing_office_name.pyStrip
    transactions := a.transactions + 1
    listings := a.listings + 1
    list_volume := a.list_volume + sp
    total_volume := a.total_volume + sp
    prices := a.prices ++ [sp]
    dom_values := match dom with
      | some d => a.dom_values ++ [d]
      | none => a.dom_values
    cities := if row.city.pyStrip = "" then a.cities else bumpCount a.cities row.city.pyStrip
    zips := if row.zip.pyStrip = "" then a.zips else bumpCount a.zips row.zip.pyStrip
    transaction_details :=
      a.transaction_details ++ [⟨cd, row.city.pyStrip, row.zip.pyStrip, sp, "l"⟩] }

/-- Lines 157-178: the mutations applied to `agents[selling_email]`. -/
def applySelling (row : Row) (cd : String) (sp : Nat) (dom : Option Nat)
    (a : Agent) : Agent :=
  { a with
    name := row.selling_agent_name.pyStrip
    first_name := row.selling_agent_first_name.pyStrip
    email := row.selling_agent_email.pyStrip.pyLower
    office := row.selling_office_name.pyStrip
    transactions := a.transactions + 1
    sales := a.sales + 1
    sale_volume := a.sale_volume + sp
    total_volume := a.total_volume + sp
    prices := a.prices ++ [sp]
    dom_values := match dom with
      | some d => a.dom_values ++ [d]
      | none => a.dom_values
    cities := if row.city.pyStrip = "" then a.cities else bumpCount a.cities row.city.pyStrip
    zips := if row.zip.pyStrip = "" then a.zips else bumpCount a.zips row.zip.pyStrip
    transaction_details :=
      a.transaction_details ++ [⟨cd, row.city.pyStrip, row.zip.pyStrip, sp, "s"⟩] }

/-- Lines 144-148: the mutations applied to `companies[office.lower()]`. -/
def applyCompanyListing (office agentKey : String) (sp : Nat) (c : Company) :
    Company :=
  { c with
    name := office
    agents := insertSet c.agents agentKey
    transactions := c.transactions + 1
    listings := c.listings + 1
    total_volume := c.total_volume + sp }

/-- Lines 181-185: the selling-side company mutations. -/
def applyCompanySelling (office agentKey : String) (sp : Nat) (c : Company) :
    Company :=
  { c with
    name := office
    agents := insertSet c.agents agentKey
    transactions := c.transactions + 1
    sales := c.sales + 1
    total_volume := c.total_volume + sp }

/-- Lines 113-148: the listing-role block (`if listing_agent and listing_email`,
then `if listing_office`). -/
def doListing (row : Row) (cd : String) (sp : Nat) (dom : Option Nat)
    (st : PState) : PState :=
  if row.listing_agent_name.pyStrip = "" ∨ row.listing_agent_email.pyStrip.pyLower = "" then
    st
  else
    let key := row.listing_agent_email.pyStrip.pyLower
    let st1 := { st with agents := dictUpdate st.agents emptyAgent key (applyListing row cd sp dom) }
    let lo := row.listing_office_name.pyStrip
    if lo = "" then st1
    else
      { st1 with companies := dictUpdate st1.companies emptyCompany lo.pyLower (applyCompanyListing lo key sp) }

/-- Lines 150-185: the selling-role block. -/
def doSelling (row : Row) (cd : String) (sp : Nat) (dom : Option Nat)
    (st : PState) : PState :=
  if row.selling_agent_name.pyStrip = "" ∨ row.selling_agent_email.pyStrip.pyLower = "" then
    st
  else
    let key := row.selling_agent_email.pyStrip.pyLower
    let st1 := { st with agents := dictUpdate st.agents emptyAgent key (applySelling row cd sp dom) }
    let so := row.selling_office_name.pyStrip
    if so = "" then st1
    else
      { st1 with companies := dictUpdate st1.companies emptyCompany so.pyLower (applyCompanySelling so key sp) }

/-- Lines 98-185, one loop iteration.  A row with no parseable close date is
counted as skipped with no other effect; otherwise the market totals and
both role blocks are applied.  `none` models an exception (only possible
from `clean_price`) killing the run. -/
def processRow (st : PState) (row : Row) : Option PState :=
  match parse_date row.close_date with
  | none => some { st with rows_skipped_no_date := st.rows_skipped_no_date + 1 }
  | some cd =>
    match clean_price row.sold_price with
    | none => none
    | some sp =>
      let dom := parse_dom row.days_on_market
      some (doSelling row cd sp dom (doListing row cd sp dom (acceptRow st sp)))

/-- The CSV loop starting from an arbitrary state. -/
def process_rows (st : PState) : List Row → Option PState
  | [] => some st
  | row :: rest =>
    match processRow st row with
    | none => none
    | some st' => process_rows st' rest

/-- Embedding of `process_csv` (src/process_data.py:62-195): fold the row list over the
empty state. -/
def process_csv (rows : List Row) : Option PState :=
  process_rows initState rows

/-! ## Formatters -/

/-- One formatted agent record (`agent_obj`, src/process_data.py:220-239).
The `tok` field (an md5 digest prefix of the email) is an opaque client-side
identifier and is not part of the embedding. -/
structure AgentJS where
  n : String
  fn : String
  e : String
  o : String
  t : Nat
  l : Nat
  s : Nat
  lv : Nat
  sv : Nat
  tv : Nat
  ap : Nat
  asf : Nat
  ad : Nat
  dc : Nat
  c : List (String × Nat)
  z : List (String × Nat)
  d : List TxDetail
deriving Repr, DecidableEq

/-- One formatted company record (`company_obj`, src/process_data.py:252-259). -/
structure CompanyJS where
  n : String
  t : Nat
  l : Nat
  s : Nat
  tv : Nat
  a : Nat
deriving Repr, DecidableEq

/-- Comparator for `sorted(details, key=lambda x: x['dt'])`: stable ascending sort on the
date string. -/
def txLE (a b : TxDetail) : Bool :=
  decide (a.dt ≤ b.dt)

/-- The composite dedup key `f"{dt}|{c}|{z}|{ty}"` (line 212). -/
def txKey (t : TxDetail) : String :=
  t.dt ++ "|" ++ t.c ++ "|" ++ t.z ++ "|" ++ t.ty

/-- The `seen`-set dedup loop of lines 209-215: keep the first occurrence of
each key, in order. -/
def dedupTx (seen : List String) : List TxDetail → List TxDetail
  | [] => []
  | t :: ts =>
    if txKey t ∈ seen then dedupTx seen ts
    else t :: dedupTx (txKey t :: seen) ts

/-- Comparator for `sorted(items, key=lambda x: -x[1])`: stable descending sort on count. -/
def countGE (a b : String × Nat) : Bool :=
  decide (b.2 ≤ a.2)

/-- The per-agent body of the `format_agents_for_js` loop (lines 204-239):
average price and average days-on-market are `int()` truncations of exact
(nonnegative) means, hence floor division. -/
def formatAgent (data : Agent) : AgentJS :=
  { n := data.name
    fn := data.first_name
    e := data.email
    o := data.office
    t := data.transactions
    l := data.listings
    s := data.sales
    lv := data.list_volume
    sv := data.sale_volume
    tv := data.total_volume
    ap := if data.prices = [] then 0 else data.prices.sum / data.prices.length
    asf := 0
    ad := if data.dom_values = [] then 0
          else data.dom_values.sum / data.dom_values.length
    dc := data.dom_values.length
    c := ((data.cities.mergeSort countGE).take 10)
    z := ((data.zips.mergeSort countGE).take 10)
    d := dedupTx [] (data.transaction_details.mergeSort txLE) }

/-- Sort key `(-x['t'], -x['tv'])` (lines 242, 262) as a boolean `le` for the
stable sort: descending by transactions, ties descending by total volume. -/
def rankLE (ta tva tb tvb : Nat) : Bool :=
  decide (tb < ta) || (decide (ta = tb) && decide (tvb ≤ tva))

def agentLE (a b : AgentJS) : Bool :=
  rankLE a.t a.tv b.t b.tv

def companyLE (a b : CompanyJS) : Bool :=
  rankLE a.t a.tv b.t b.tv

/-- The pre-sort agent list: the dict iterated in insertion order, agents
with zero transactions skipped (lines 200-202), each formatted. -/
def agentsPre (agents : List (String × Agent)) : List AgentJS :=
  (agents.filter fun p => p.2.transactions ≠ 0).map fun p => formatAgent p.2

/-- Embedding of `format_agents_for_js` (src/process_data.py:197-243). -/
def format_agents_for_js (agents : List (String × Agent)) : List AgentJS :=
  (agentsPre agents).mergeSort agentLE

/-- The per-company body of the loop (lines 252-259); `a` is `len(set)`. -/
def formatCompany (data : Company) : CompanyJS :=
  { n := data.name
    t := data.transactions
    l := data.listings
    s := data.sales
    tv := data.total_volume
    a := data.agents.length }

/-- The pre-sort company list (lines 248-260). -/
def companiesPre (companies : List (String × Company)) : List CompanyJS :=
  (companies.filter fun p => p.2.transactions ≠ 0).map fun p => formatCompany p.2

/-- Embedding of `format_companies_for_js` (src/process_data.py:245-263). -/
def format_companies_for_js (companies : List (String × Company)) : List CompanyJS :=
  (companiesPre companies).mergeSort companyLE

/-- Lines 275-276 of `calculate_market_stats`: the average days-on-market,
taken over the agents with at least one days-on-market sample only (the
value before the final `round(·, 0)`), as an exact rational. -/
def market_avg_dom (agents_js : List AgentJS) : ℚ :=
  let dom_agents := agents_js.filter fun a => 0 < a.dc
  if dom_agents = [] then 0
  else ((dom_agents.map fun a => (a.ad : ℚ)).sum) / dom_agents.length

/-! ## Helper lemmas -/

theorem dictGet_dictUpdate {α : Type} (m : List (String × α)) (d : α) (k : String)
    (f : α → α) (q : String) :
    dictGet (dictUpdate m d k f) d q = if k = q then f (dictGet m d k) else dictGet m d q := by
  induction m with
  | nil => by_cases h : k = q <;> simp [dictUpdate, dictGet, h]
  | cons p rest ih =>
    obtain ⟨k', v⟩ := p
    by_cases h1 : k' = k
    · subst h1
      by_cases h2 : k' = q <;> simp [dictUpdate, dictGet, h2]
    · by_cases h2 : k' = q
      · subst h2
        have hkq : ¬ k = k' := fun hh => h1 hh.symm
        simp [dictUpdate, dictGet, h1, hkq]
      · simp [dictUpdate, dictGet, h1, h2, ih]

theorem dictInv_update {α : Type} (P : α → Prop) (m : List (String × α)) (d : α)
    (k : String) (f : α → α) (hm : ∀ q, P (dictGet m d q)) (hf : ∀ a, P a → P (f a)) :
    ∀ q, P (dictGet (dictUpdate m d k f) d q) := by
  intro q
  rw [dictGet_dictUpdate]
  split
  · exact hf _ (hm k)
  · exact hm q

theorem doListing_eq (row : Row) (cd : String) (sp : Nat) (dom : Option Nat) (st : PState) :
    doListing row cd sp dom st =
      { st with
        agents :=
          if row.listing_agent_name.pyStrip = "" ∨ row.listing_agent_email.pyStrip.pyLower = "" then
            st.agents
          else
            dictUpdate st.agents emptyAgent (row.listing_agent_email.pyStrip.pyLower)
              (applyListing row cd sp dom)
        companies :=
          if row.listing_agent_name.pyStrip = "" ∨ row.listing_agent_email.pyStrip.pyLower = "" then
            st.companies
          else if row.listing_office_name.pyStrip = "" then st.companies
          else
            dictUpdate st.companies emptyCompany (row.listing_office_name.pyStrip.pyLower)
              (applyCompanyListing (row.listing_office_name.pyStrip)
                (row.listing_agent_email.pyStrip.pyLower) sp) } := by
  unfold doListing
  dsimp only
  split_ifs <;> rfl

theorem doSelling_eq (row : Row) (cd : String) (sp : Nat) (dom : Option Nat) (st : PState) :
    doSelling row cd sp dom st =
      { st with
        agents :=
          if row.selling_agent_name.pyStrip = "" ∨ row.selling_agent_email.pyStrip.pyLower = "" then
            st.agents
          else
            dictUpdate st.agents emptyAgent (row.selling_agent_email.pyStrip.pyLower)
              (applySelling row cd sp dom)
        companies :=
          if row.selling_agent_name.pyStrip = "" ∨ row.selling_agent_email.pyStrip.pyLower = "" then
            st.companies
          else if row.selling_office_name.pyStrip = "" then st.companies
          else
            dictUpdate st.companies emptyCompany (row.selling_office_name.pyStrip.pyLower)
              (applyCompanySelling (row.selling_office_name.pyStrip)
                (row.selling_agent_email.pyStrip.pyLower) sp) } := by
  unfold doSelling
  dsimp only
  split_ifs <;> rfl

theorem processRow_skip (st : PState) (row : Row) (h : parse_date row.close_date = none) :
    processRow st row = some { st with rows_skipped_no_date := st.rows_skipped_no_date + 1 } := by
  simp [processRow, h]

theorem processRow_accept (st : PState) (row : Row) (cd : String) (sp : Nat)
    (hd : parse_date row.close_date = some cd) (hp : clean_price row.sold_price = some sp) :
    processRow st row =
      some (doSelling row cd sp (parse_dom row.days_on_market)
        (doListing row cd sp (parse_dom row.days_on_market) (acceptRow st sp))) := by
  simp [processRow, hd, hp]

theorem process_rows_inv (P : PState → Prop)
    (hstep : ∀ st row st', P st → processRow st row = some st' → P st')
    (rows : List Row) :
    ∀ st st', P st → process_rows st rows = some st' → P st' := by
  induction rows with
  | nil =>
    intro st st' h0 h
    simp [process_rows] at h
    exact h ▸ h0
  | cons row rest ih =>
    intro st st' h0 h
    cases heq : processRow st row with
    | none => simp [process_rows, heq] at h
    | some st1 =>
      simp only [process_rows, heq] at h
      exact ih st1 st' (hstep st row st1 h0 heq) h

/-- Any per-agent predicate preserved by both role updates and satisfied by the
`defaultdict` default is an invariant of the whole-state agent map. -/
theorem agent_map_inv_step (P : Agent → Prop)
    (hL : ∀ row cd sp dom a, P a → P (applyListing row cd sp dom a))
    (hS : ∀ row cd sp dom a, P a → P (applySelling row cd sp dom a))
    (st : PState) (row : Row) (st' : PState)
    (hi : ∀ k, P (dictGet st.agents emptyAgent k))
    (h : processRow st row = some st') :
    ∀ k, P (dictGet st'.agents emptyAgent k) := by
  cases hd : parse_date row.close_date with
  | none =>
    rw [processRow_skip st row hd] at h
    obtain rfl := Option.some_inj.mp h
    exact hi
  | some cd =>
    cases hp : clean_price row.sold_price with
    | none => simp [processRow, hd, hp] at h
    | some sp =>
      rw [processRow_accept st row cd sp hd hp] at h
      obtain rfl := Option.some_inj.mp h
      have hmid : ∀ k, P (dictGet (doListing row cd sp (parse_dom row.days_on_market)
          (acceptRow st sp)).agents emptyAgent k) := by
        rw [doListing_eq]
        dsimp only
        split
        · exact hi
        · exact dictInv_update P _ _ _ _ hi (fun a ha => hL _ _ _ _ a ha)
      rw [doSelling_eq]
      dsimp only
      split
      · exact hmid
      · exact dictInv_update P _ _ _ _ hmid (fun a ha => hS _ _ _ _ a ha)

theorem agent_map_inv (P : Agent → Prop) (hd : P emptyAgent)
    (hL : ∀ row cd sp dom a, P a → P (applyListing row cd sp dom a))
    (hS : ∀ row cd sp dom a, P a → P (applySelling row cd sp dom a))
    (rows : List Row) (st : PState) (h : process_csv rows = some st) :
    ∀ k, P (dictGet st.agents emptyAgent k) := by
  have base : ∀ k, P (dictGet initState.agents emptyAgent k) := by
    intro k
    simpa [initState, dictGet] using hd
  exact process_rows_inv (fun s => ∀ k, P (dictGet s.agents emptyAgent k))
    (fun s row s' hs hstep => agent_map_inv_step P hL hS s row s' hs hstep)
    rows initState st base h

/-- The company-side analogue of `agent_map_inv_step`. -/
theorem company_map_inv_step (P : Company → Prop)
    (hL : ∀ office key sp c, P c → P (applyCompanyListing office key sp c))
    (hS : ∀ office key sp c, P c → P (applyCompanySelling office key sp c))
    (st : PState) (row : Row) (st' : PState)
    (hi : ∀ k, P (dictGet st.companies emptyCompany k))
    (h : processRow st row = some st') :
    ∀ k, P (dictGet st'.companies emptyCompany k) := by
  cases hd : parse_date row.close_date with
  | none =>
    rw [processRow_skip st row hd] at h
    obtain rfl := Option.some_inj.mp h
    exact hi
  | some cd =>
    cases hp : clean_price row.sold_price with
    | none => simp [processRow, hd, hp] at h
    | some sp =>
      rw [processRow_accept st row cd sp hd hp] at h
      obtain rfl := Option.some_inj.mp h
      have hmid : ∀ k, P (dictGet (doListing row cd sp (parse_dom row.days_on_market)
          (acceptRow st sp)).companies emptyCompany k) := by
        rw [doListing_eq]
        dsimp only
        split
        · exact hi
        · split
          · exact hi
          · exact dictInv_update P _ _ _ _ hi (fun c hc => hL _ _ _ c hc)
      rw [doSelling_eq]
      dsimp only
      split
      · exact hmid
      · split
        · exact hmid
        · exact dictInv_update P _ _ _ _ hmid (fun c hc => hS _ _ _ c hc)

theorem company_map_inv (P : Company → Prop) (hd : P emptyCompany)
    (hL : ∀ office key sp c, P c → P (applyCompanyListing office key sp c))
    (hS : ∀ office key sp c, P c → P (applyCompanySelling office key sp c))
    (rows : List Row) (st : PState) (h : process_csv rows = some st) :
    ∀ k, P (dictGet st.companies emptyCompany k) := by
  have base : ∀ k, P (dictGet initState.companies emptyCompany k) := by
    intro k
    simpa [initState, dictGet] using hd
  exact process_rows_inv (fun s => ∀ k, P (dictGet s.companies emptyCompany k))
    (fun s row s' hs hstep => company_map_inv_step P hL hS s row s' hs hstep)
    rows initState st base h

/-! ## Invariant predicates and their preservation -/

/-- The agent invariant of §3 of the spec: transactions split into listings
plus sales, and volume splits likewise. -/
def agentInv (a : Agent) : Prop :=
  a.transactions = a.listings + a.sales ∧
    a.total_volume = a.list_volume + a.sale_volume

/-- The per-agent price-list bookkeeping: one price entry per transaction,
summing to the total volume. -/
def priceInv (a : Agent) : Prop :=
  a.prices.length = a.transactions ∧ a.prices.sum = a.total_volume

/-- The company invariant: transactions split into listings plus sales. -/
def companyInv (c : Company) : Prop :=
  c.transactions = c.listings + c.sales

theorem agentInv_applyListing (row : Row) (cd : String) (sp : Nat)
    (dom : Option Nat) (a : Agent) (h : agentInv a) :
    agentInv (applyListing row cd sp dom a) := by
  obtain ⟨h1, h2⟩ := h
  constructor <;> simp [applyListing] <;> omega

theorem agentInv_applySelling (row : Row) (cd : String) (sp : Nat)
    (dom : Option Nat) (a : Agent) (h : agentInv a) :
    agentInv (applySelling row cd sp dom a) := by
  obtain ⟨h1, h2⟩ := h
  constructor <;> simp [applySelling] <;> omega

theorem priceInv_applyListing (row : Row) (cd : String) (sp : Nat)
    (dom : Option Nat) (a : Agent) (h : priceInv a) :
    priceInv (applyListing row cd sp dom a) := by
  obtain ⟨h1, h2⟩ := h
  constructor <;> simp [applyListing] <;> omega

theorem priceInv_applySelling (row : Row) (cd : String) (sp : Nat)
    (dom : Option Nat) (a : Agent) (h : priceInv a) :
    priceInv (applySelling row cd sp dom a) := by
  obtain ⟨h1, h2⟩ := h
  constructor <;> simp [applySelling] <;> omega

theorem companyInv_applyListing (office key : String) (sp : Nat) (c : Company)
    (h : companyInv c) : companyInv (applyCompanyListing office key sp c) := by
  unfold companyInv at h ⊢
  simp [applyCompanyListing]
  omega

theorem companyInv_applySelling (office key : String) (sp : Nat) (c : Company)
    (h : companyInv c) : companyInv (applyCompanySelling office key sp c) := by
  unfold companyInv at h ⊢
  simp [applyCompanySelling]
  omega

/-! ## Concrete fixtures used by the witnesses -/

/-- A row with a listing agent only. -/
def rowL : Row :=
  ⟨"1/2/25", "$100", "Mesa", "85201", "7", "Ann Smith", "Ann", "ANN@Ex.com",
    "Acme Realty", "", "", "", ""⟩

/-- A row with distinct listing and selling agents. -/
def rowB : Row :=
  ⟨"2025-03-04", "$200", "Tempe", "85281", "0", "Ann Smith", "Ann",
    "ann@ex.com", "Acme Realty", "Bob Jones", "Bob", "bob@ex.com", "Beta Realty"⟩

def rowsEx : List Row := [rowL, rowB]

def stEx : PState := (process_csv rowsEx).getD initState

/-- A row whose listing and selling agent are the same person (same email,
modulo case), as happens when one agent represents both sides. -/
def rowDup : Row :=
  ⟨"1/2/25", "$250", "Mesa", "85201", "", "Ann Smith", "Ann", "Ann@Ex.com",
    "Acme", "Ann Smith", "Ann", "ANN@EX.COM", "Acme"⟩

/-- A row with a European-formatted price: `float("1.052.500")` raises. -/
def rowBadPrice : Row := { rowL with sold_price := "1.052.500" }

/-- A row whose close date matches none of the three formats. -/
def rowND : Row := { rowL with close_date := "not-a-date" }

/-! ## Claims -/

/-- C3: after processing any sequence of rows, every agent aggregate
satisfies `transactions = listings + sales` and
`total_volume = list_volume + sale_volume`, and every per-row update
preserves both equalities (the map is read through `dictGet`, which also
returns the lazily-created default for absent keys). -/
theorem C3_agent_invariant :
    (∀ st row st', processRow st row = some st' →
        (∀ k, agentInv (dictGet st.agents emptyAgent k)) →
        ∀ k, agentInv (dictGet st'.agents emptyAgent k)) ∧
    (∀ rows st, process_csv rows = some st →
        ∀ k, agentInv (dictGet st.agents emptyAgent k)) := by
  constructor
  · intro st row st' h hi
    exact agent_map_inv_step agentInv agentInv_applyListing agentInv_applySelling
      st row st' hi h
  · intro rows st h
    exact agent_map_inv agentInv ⟨rfl, rfl⟩ agentInv_applyListing
      agentInv_applySelling rows st h

/-- Witness for C3 on a concrete two-row run. -/
theorem C3_agent_invariant_witness :
    process_csv rowsEx = some stEx ∧
      agentInv (dictGet stEx.agents emptyAgent "ann@ex.com") :=
  ⟨rfl, C3_agent_invariant.2 rowsEx stEx rfl "ann@ex.com"⟩

/-- C9: after processing any sequence of rows, every company aggregate
satisfies `transactions = listings + sales`: each company update increments
the transaction counter together with exactly one of the listing or sale
counters. -/
theorem C9_company_invariant :
    (∀ st row st', processRow st row = some st' →
        (∀ k, companyInv (dictGet st.companies emptyCompany k)) →
        ∀ k, companyInv (dictGet st'.companies emptyCompany k)) ∧
    (∀ rows st, process_csv rows = some st →
        ∀ k, companyInv (dictGet st.companies emptyCompany k)) := by
  constructor
  · intro st row st' h hi
    exact company_map_inv_step companyInv companyInv_applyListing
      companyInv_applySelling st row st' hi h
  · intro rows st h
    exact company_map_inv companyInv rfl companyInv_applyListing
      companyInv_applySelling rows st h

/-- Witness for C9 on a concrete two-row run. -/
theorem C9_company_invariant_witness :
    process_csv rowsEx = some stEx ∧
      companyInv (dictGet stEx.companies emptyCompany "acme realty") :=
  ⟨rfl, C9_company_invariant.2 rowsEx stEx rfl "acme realty"⟩

/-- C10: for every agent aggregate produced by a run, the price list has
exactly one entry per transaction, the entries sum to the total volume, and
therefore the emitted average price `ap` equals `total_volume` divided by
`transactions`, truncated toward zero (`Nat` floor division; for the
`transactions = 0` case, which is never emitted, both sides are 0). -/
theorem C10_avg_price (rows : List Row) (st : PState)
    (h : process_csv rows = some st) (k : String) :
    (dictGet st.agents emptyAgent k).prices.length
        = (dictGet st.agents emptyAgent k).transactions ∧
      (formatAgent (dictGet st.agents emptyAgent k)).ap
        = (dictGet st.agents emptyAgent k).total_volume
            / (dictGet st.agents emptyAgent k).transactions := by
  have hP := agent_map_inv priceInv ⟨rfl, rfl⟩ priceInv_applyListing
    priceInv_applySelling rows st h k
  obtain ⟨hlen, hsum⟩ := hP
  refine ⟨hlen, ?_⟩
  by_cases hnil : (dictGet st.agents emptyAgent k).prices = []
  · have ht : (dictGet st.agents emptyAgent k).transactions = 0 := by
      rw [← hlen, hnil]
      rfl
    have htv : (dictGet st.agents emptyAgent k).total_volume = 0 := by
      rw [← hsum, hnil]
      rfl
    simp [formatAgent, hnil, ht, htv]
  · simp only [formatAgent, hnil, if_false]
    rw [hsum, hlen]

/-- Witness for C10 on a concrete two-row run. -/
theorem C10_avg_price_witness :
    process_csv rowsEx = some stEx ∧
      ((dictGet stEx.agents emptyAgent "ann@ex.com").prices.length
          = (dictGet stEx.agents emptyAgent "ann@ex.com").transactions ∧
        (formatAgent (dictGet stEx.agents emptyAgent "ann@ex.com")).ap
          = (dictGet stEx.agents emptyAgent "ann@ex.com").total_volume
              / (dictGet stEx.agents emptyAgent "ann@ex.com").transactions) :=
  ⟨rfl, C10_avg_price rowsEx stEx rfl "ann@ex.com"⟩

/-- C5: a row whose close date matches none of the three accepted formats
(`parse_date` returns `None`) is rejected before any aggregation side
effect: the resulting state differs from the previous one only in the
rejected-row counter, which increments by 1; agents, companies, market
totals and the processed-row counter are untouched. -/
theorem C5_no_date_rejected (st : PState) (row : Row)
    (h : parse_date row.close_date = none) :
    processRow st row =
      some { st with rows_skipped_no_date := st.rows_skipped_no_date + 1 } := by
  simp [processRow, h]

/-- Witness for C5 at the spec's own example `"not-a-date"`. -/
theorem C5_no_date_rejected_witness :
    parse_date rowND.close_date = none ∧
      processRow initState rowND =
        some { initState with rows_skipped_no_date := 1 } :=
  ⟨rfl, C5_no_date_rejected initState rowND rfl⟩

/-- C7: for every accepted row (close date parses, price cleaning returns),
the market-level transaction count increments by exactly 1 and the
market-level volume by exactly the row's cleaned sale price, whatever the
row's agent fields are (zero, one or two agent aggregates updated). -/
theorem C7_market_totals (st : PState) (row : Row) (cd : String) (sp : Nat)
    (hd : parse_date row.close_date = some cd)
    (hp : clean_price row.sold_price = some sp) :
    (processRow st row).map (fun s => s.market_transaction_count)
        = some (st.market_transaction_count + 1) ∧
      (processRow st row).map (fun s => s.market_total_volume)
        = some (st.market_total_volume + sp) := by
  rw [processRow_accept st row cd sp hd hp]
  constructor <;> simp [doSelling_eq, doListing_eq, acceptRow]

/-- Witness for C7 on a row that touches one agent aggregate. -/
theorem C7_market_totals_witness :
    parse_date rowL.close_date = some "2025-01-02" ∧
      clean_price rowL.sold_price = some 100 ∧
      (processRow initState rowL).map (fun s => s.market_transaction_count)
          = some 1 ∧
      (processRow initState rowL).map (fun s => s.market_total_volume)
          = some 100 :=
  ⟨rfl, rfl,
    (C7_market_totals initState rowL "2025-01-02" 100 rfl rfl).1,
    (C7_market_totals initState rowL "2025-01-02" 100 rfl rfl).2⟩

/-- C1 (counterexample): the code never compares the selling-agent email to
the listing-agent email.  On a row where both roles carry the same agent
(same email up to case), that agent's transaction counter ends at 2 after
one row from the empty state — not 1 as the claim states. -/
theorem C1_counterexample :
    (process_csv [rowDup]).map
        (fun st => (dictGet st.agents emptyAgent "ann@ex.com").transactions)
      = some 2 := rfl

/-- C1 (amended): a record contributes to the selling-agent aggregate
whenever the selling-agent name and email are non-empty, with no
distinctness check against the listing agent; on an accepted row whose
normalized selling-agent email equals the listing-agent email (both roles
present), that agent's transaction counter increases by exactly 2. -/
theorem C1_same_agent_double (st : PState) (row : Row) (cd : String) (sp : Nat)
    (hd : parse_date row.close_date = some cd)
    (hp : clean_price row.sold_price = some sp)
    (hnl : row.listing_agent_name.pyStrip ≠ "")
    (hml : row.listing_agent_email.pyStrip.pyLower ≠ "")
    (hns : row.selling_agent_name.pyStrip ≠ "")
    (heq : row.selling_agent_email.pyStrip.pyLower
        = row.listing_agent_email.pyStrip.pyLower) :
    (processRow st row).map
        (fun s => (dictGet s.agents emptyAgent
          (row.listing_agent_email.pyStrip.pyLower)).transactions)
      = some ((dictGet st.agents emptyAgent
          (row.listing_agent_email.pyStrip.pyLower)).transactions + 2) := by
  have hcS : ¬(row.selling_agent_name.pyStrip = ""
      ∨ row.selling_agent_email.pyStrip.pyLower = "") := by
    rintro (h | h)
    · exact hns h
    · exact hml (heq ▸ h)
  have hcL : ¬(row.listing_agent_name.pyStrip = ""
      ∨ row.listing_agent_email.pyStrip.pyLower = "") := by
    rintro (h | h)
    · exact hnl h
    · exact hml h
  rw [processRow_accept st row cd sp hd hp]
  simp only [Option.map_some']
  rw [doSelling_eq]
  dsimp only
  rw [if_neg hcS, heq, dictGet_dictUpdate, if_pos rfl]
  rw [doListing_eq]
  dsimp only
  rw [if_neg hcL, dictGet_dictUpdate, if_pos rfl]
  simp [applySelling, applyListing, acceptRow]

/-- Witness for the amended C1 on the concrete duplicated-agent row. -/
theorem C1_same_agent_double_witness :
    parse_date rowDup.close_date = some "2025-01-02" ∧
      clean_price rowDup.sold_price = some 250 ∧
      rowDup.selling_agent_email.pyStrip.pyLower
          = rowDup.listing_agent_email.pyStrip.pyLower ∧
      (processRow initState rowDup).map
          (fun s => (dictGet s.agents emptyAgent
            (rowDup.listing_agent_email.pyStrip.pyLower)).transactions)
        = some 2 :=
  ⟨rfl, rfl, rfl,
    C1_same_agent_double initState rowDup "2025-01-02" 250 rfl rfl
      (by decide) (by decide) (by decide) rfl⟩

/-- C2: refuted on the code — `clean_price` is not total.  On a price string
whose stripped form has more than one decimal point (for instance the
European-formatted `"1.052.500"`), `float()` raises an uncaught
`ValueError` (modelled by `none`), which aborts the whole run instead of
degrading to 0. -/
theorem C2_clean_price_raises :
    clean_price "1.052.500" = none ∧ process_csv [rowBadPrice] = none :=
  ⟨rfl, rfl⟩

/-! ## Sorting lemmas for the output arrays -/

theorem rankLE_trans (a1 v1 a2 v2 a3 v3 : Nat) (h1 : rankLE a1 v1 a2 v2)
    (h2 : rankLE a2 v2 a3 v3) : rankLE a1 v1 a3 v3 := by
  simp only [rankLE, Bool.or_eq_true, Bool.and_eq_true, decide_eq_true_eq] at h1 h2 ⊢
  omega

theorem rankLE_total (a1 v1 a2 v2 : Nat) :
    rankLE a1 v1 a2 v2 || rankLE a2 v2 a1 v1 := by
  simp only [rankLE, Bool.or_eq_true, Bool.and_eq_true, decide_eq_true_eq]
  omega

theorem agentLE_trans (a b c : AgentJS) (h1 : agentLE a b) (h2 : agentLE b c) :
    agentLE a c :=
  rankLE_trans a.t a.tv b.t b.tv c.t c.tv h1 h2

theorem agentLE_total (a b : AgentJS) : agentLE a b || agentLE b a :=
  rankLE_total a.t a.tv b.t b.tv

theorem companyLE_trans (a b c : CompanyJS) (h1 : companyLE a b)
    (h2 : companyLE b c) : companyLE a c :=
  rankLE_trans a.t a.tv b.t b.tv c.t c.tv h1 h2

theorem companyLE_total (a b : CompanyJS) : companyLE a b || companyLE b a :=
  rankLE_total a.t a.tv b.t b.tv

/-- C4: for every pair of aggregate maps, both output arrays are sorted
descending by transaction count with ties broken by descending total volume
(each consecutive pair of records satisfies that order), and the sort is
stable: two records equal on both keys appear in the output in the same
order in which the (insertion-ordered) aggregate map produced them. -/
theorem C4_sorted_stable (agents : List (String × Agent))
    (companies : List (String × Company)) :
    List.Pairwise (fun a b : AgentJS => b.t < a.t ∨ (a.t = b.t ∧ b.tv ≤ a.tv))
        (format_agents_for_js agents) ∧
      List.Pairwise (fun a b : CompanyJS => b.t < a.t ∨ (a.t = b.t ∧ b.tv ≤ a.tv))
        (format_companies_for_js companies) ∧
      (∀ x y : AgentJS, x.t = y.t → x.tv = y.tv →
        List.Sublist [x, y] (agentsPre agents) →
        List.Sublist [x, y] (format_agents_for_js agents)) ∧
      (∀ v w : CompanyJS, v.t = w.t → v.tv = w.tv →
        List.Sublist [v, w] (companiesPre companies) →
        List.Sublist [v, w] (format_companies_for_js companies)) := by
  refine ⟨?_, ?_, ?_, ?_⟩
  · have hs := List.sorted_mergeSort agentLE_trans agentLE_total (agentsPre agents)
    exact hs.imp (by
      intro a b hab
      revert hab
      simp only [agentLE, rankLE, Bool.or_eq_true, Bool.and_eq_true,
        decide_eq_true_eq]
      omega)
  · have hs := List.sorted_mergeSort companyLE_trans companyLE_total
      (companiesPre companies)
    exact hs.imp (by
      intro a b hab
      revert hab
      simp only [companyLE, rankLE, Bool.or_eq_true, Bool.and_eq_true,
        decide_eq_true_eq]
      omega)
  · intro x y ht htv hsub
    exact List.pair_sublist_mergeSort agentLE_trans agentLE_total
      (by simp [agentLE, rankLE, ht, htv]) hsub
  · intro v w ht htv hsub
    exact List.pair_sublist_mergeSort companyLE_trans companyLE_total
      (by simp [companyLE, rankLE, ht, htv]) hsub

/-- Two agents equal on both sort keys, in map insertion order. -/
def agSame1 : Agent :=
  { emptyAgent with name := "A1", transactions := 5, total_volume := 1000000 }

def agSame2 : Agent :=
  { emptyAgent with name := "A2", transactions := 5, total_volume := 1000000 }

def agentsC4 : List (String × Agent) := [("a1@x", agSame1), ("a2@x", agSame2)]

def coSame1 : Company :=
  { emptyCompany with name := "C1", transactions := 3, total_volume := 500 }

def coSame2 : Company :=
  { emptyCompany with name := "C2", transactions := 3, total_volume := 500 }

def compsC4 : List (String × Company) := [("c1", coSame1), ("c2", coSame2)]

/-- Witness for C4 on concrete maps holding two key-equal records each: the
sortedness conclusions are obtained outright, and the stability conjuncts
are discharged at the concrete key-equal pairs. -/
theorem C4_sorted_stable_witness :
    List.Pairwise (fun a b : AgentJS => b.t < a.t ∨ (a.t = b.t ∧ b.tv ≤ a.tv))
        (format_agents_for_js agentsC4) ∧
      List.Pairwise (fun a b : CompanyJS => b.t < a.t ∨ (a.t = b.t ∧ b.tv ≤ a.tv))
        (format_companies_for_js compsC4) ∧
      List.Sublist [formatAgent agSame1, formatAgent agSame2]
        (format_agents_for_js agentsC4) ∧
      List.Sublist [formatCompany coSame1, formatCompany coSame2]
        (format_companies_for_js compsC4) :=
  ⟨(C4_sorted_stable agentsC4 compsC4).1,
    (C4_sorted_stable agentsC4 compsC4).2.1,
    (C4_sorted_stable agentsC4 compsC4).2.2.1 (formatAgent agSame1)
      (formatAgent agSame2) rfl rfl
      (by
        have h : agentsPre agentsC4 = [formatAgent agSame1, formatAgent agSame2] := rfl
        rw [h]),
    (C4_sorted_stable agentsC4 compsC4).2.2.2 (formatCompany coSame1)
      (formatCompany coSame2) rfl rfl
      (by
        have h : companiesPre compsC4 = [formatCompany coSame1, formatCompany coSame2] := rfl
        rw [h])⟩

/-- C8: in the market-level average days-on-market, an agent with zero valid
days-on-market samples (`dc = 0`) contributes to neither the numerator nor
the denominator: deleting it anywhere in the input list leaves the average
unchanged. -/
theorem C8_avg_dom_excludes (l1 l2 : List AgentJS) (a : AgentJS) (h : a.dc = 0) :
    market_avg_dom (l1 ++ a :: l2) = market_avg_dom (l1 ++ l2) := by
  unfold market_avg_dom
  simp [List.filter_append, List.filter_cons, h]

/-- An agent with one days-on-market sample averaging 7 days. -/
def ajDom : AgentJS :=
  { n := "D", fn := "", e := "d@x", o := "", t := 1, l := 1, s := 0, lv := 0,
    sv := 0, tv := 0, ap := 0, asf := 0, ad := 7, dc := 1, c := [], z := [],
    d := [] }

/-- An agent with no days-on-market samples (and a junk `ad`). -/
def ajZero : AgentJS := { ajDom with n := "Z", ad := 99, dc := 0 }

/-- Witness for C8: the `dc = 0` agent is ignored by the average. -/
theorem C8_avg_dom_excludes_witness :
    ajZero.dc = 0 ∧ market_avg_dom [ajDom, ajZero] = market_avg_dom [ajDom] :=
  ⟨rfl, C8_avg_dom_excludes [ajDom] [] ajZero rfl⟩

/-! ## Price-cleaning lemmas -/

theorem split_ch_no_sep (sep : Char) (cs : List Char) (h : sep ∉ cs) :
    split_ch sep cs = [cs] := by
  induction cs with
  | nil => rfl
  | cons c cs ih =>
    simp only [List.mem_cons, not_or] at h
    rw [split_ch, if_neg (fun hc => h.1 hc.symm), ih h.2]

theorem split_ch_append (sep : Char) (I F : List Char) (hI : sep ∉ I) :
    split_ch sep (I ++ sep :: F) = I :: split_ch sep F := by
  induction I with
  | nil => simp [split_ch]
  | cons c cs ih =>
    simp only [List.mem_cons, not_or] at hI
    rw [List.cons_append, split_ch, if_neg (fun hc => hI.1 hc.symm), ih hI.2]

/-- `clean_price` depends on its input only through the digits-and-dots
characters that survive the strip. -/
theorem clean_price_filter (s : String) :
    clean_price s =
      (if s.data.filter (fun c => c.isDigit || c == '.') = [] then some 0
       else float_int_trunc
         (String.mk (s.data.filter fun c => c.isDigit || c == '.'))) := by
  unfold clean_price price_strip
  by_cases hs : s = ""
  · subst hs
    rfl
  · rw [if_neg hs]
    simp only [String.ext_iff]

/-- C6: price cleaning ignores every character that is not a digit or a
decimal point (inputs with the same surviving characters clean alike), maps
an empty surviving set to 0 (definitionally part of `clean_price`),
truncates a decimal string toward zero by keeping the digits before the
point, and satisfies the spec's three concrete examples. -/
theorem C6_clean_price (s t I F : String)
    (hst : s.data.filter (fun c => c.isDigit || c == '.')
        = t.data.filter (fun c => c.isDigit || c == '.'))
    (hI : I.data.all Char.isDigit) (hF : F.data.all Char.isDigit)
    (hne : I ≠ "" ∨ F ≠ "") :
    clean_price s = clean_price t ∧
      clean_price (I ++ "." ++ F) = some (digitsToNat I.data) ∧
      clean_price "$295,000" = some 295000 ∧
      clean_price "$2,945,774.02" = some 2945774 ∧
      clean_price "" = some 0 := by
  refine ⟨?_, ?_, rfl, rfl, rfl⟩
  · rw [clean_price_filter s, clean_price_filter t, hst]
  · have hdata : (I ++ "." ++ F).data = I.data ++ '.' :: F.data := by
      simp [String.data_append]
    have hdigI : ∀ c ∈ I.data, c.isDigit := by
      intro c hc
      exact List.all_eq_true.mp hI c hc
    have hdigF : ∀ c ∈ F.data, c.isDigit := by
      intro c hc
      exact List.all_eq_true.mp hF c hc
    have hdotI : '.' ∉ I.data := by
      intro hmem
      have := hdigI '.' hmem
      simp [Char.isDigit] at this
    have hdotF : '.' ∉ F.data := by
      intro hmem
      have := hdigF '.' hmem
      simp [Char.isDigit] at this
    have hfil : (I.data ++ '.' :: F.data).filter (fun c => c.isDigit || c == '.')
        = I.data ++ '.' :: F.data := by
      apply List.filter_eq_self.mpr
      intro c hc
      rcases List.mem_append.mp hc with h1 | h1
      · simp [hdigI c h1]
      · rcases List.mem_cons.mp h1 with h2 | h2
        · simp [h2]
        · simp [hdigF c h2]
    have hne2 : ¬(I.data = [] ∧ F.data = []) := by
      rcases hne with h | h
      · intro hc
        exact h (String.ext hc.1)
      · intro hc
        exact h (String.ext hc.2)
    rw [clean_price_filter, hdata, hfil, if_neg (by simp)]
    unfold float_int_trunc
    have hmkdata : (String.mk (I.data ++ '.' :: F.data)).data
        = I.data ++ '.' :: F.data := rfl
    rw [hmkdata, split_ch_append '.' I.data F.data hdotI,
      split_ch_no_sep '.' F.data hdotF]
    simp only [List.isEmpty_iff, Bool.and_eq_true, decide_eq_true_eq]
    rw [if_neg (by
      intro hc
      exact hne2 ⟨hc.1, hc.2⟩)]

/-- Witness for C6: strip-invariance between a dollar-formatted and a
suffix-annotated rendering of the same price, and decimal truncation on the
spec's cents example. -/
theorem C6_clean_price_witness :
    clean_price "$295,000" = clean_price "295,000 USD" ∧
      clean_price ("2945774" ++ "." ++ "02") = some (digitsToNat "2945774".data) ∧
      clean_price "$295,000" = some 295000 ∧
      clean_price "$2,945,774.02" = some 2945774 ∧
      clean_price "" = some 0 :=
  C6_clean_price "$295,000" "295,000 USD" "2945774" "02" rfl rfl rfl
    (Or.inl (by decide))
